import Mathlib

/-!
Verification of the clipper peak-finding pipeline (src/clipper/src/peakfinder.py).

The definitions below are a shallow embedding of the Python source, written
in Python 2 semantics where it matters (integer division is floor division,
dictionary entries are modelled as insertion-ordered association lists,
raised exceptions become values of an explicit error type).  The per-gene
peak detector (call_peaks) and the Poisson tail probability (poissonP) live
in a different module of the repository and are treated as opaque function
parameters throughout, exactly as the orchestration code treats them.
-/

set_option maxHeartbeats 1000000

/- ### Task scheduler (main, lines 580-602)

The debug branch maps the detector over the tasks in order.  The pooled
branch submits every task, then collects results in submission order; a
`job.get` that raises `TimeoutError` or any other exception only logs and
appends nothing, so such a task contributes no entry at all. -/

/-- Outcome of one pooled task: the value returned by `job.get`, or the
exception it raised (any non-timeout exception is collapsed into `failure`,
since the code treats them the same way: log and skip). -/
inductive TaskOutcome (α : Type) where
  | success : α → TaskOutcome α
  | failure : TaskOutcome α
  | timeout : TaskOutcome α
deriving DecidableEq, Repr

/-- The collection loop of the pooled branch: iterate over the jobs in
submission order, appending only the values of successful `get` calls. -/
def pooled_collect {α : Type} (outs : List (TaskOutcome α)) : List α :=
  outs.foldl (fun acc o => match o with
    | TaskOutcome.success v => acc ++ [v]
    | _ => acc) []

/-- The pooled execution path, given the behaviour of each task. -/
def pooled_run {τ α : Type} (behave : τ → TaskOutcome α) (tasks : List τ) : List α :=
  pooled_collect (tasks.map behave)

/-- The debug (sequential) execution path: `func_star` is applied to each
task in order and every value is appended. -/
def debug_run {τ α : Type} (detect : τ → α) (tasks : List τ) : List α :=
  tasks.map detect

/- ### Data model for gene results and clusters -/

/-- One candidate peak row, with the fields of the namedtuple that
`filter_results` reads.  `size` is the peak size used by the Poisson tests
(`cluster['size']`); `peak_length` is the separate width column that the
classic mode clamps. -/
structure InCluster where
  chrom : String
  genomic_start : Nat
  genomic_stop : Nat
  thick_start : Nat
  thick_stop : Nat
  strand : String
  gene_name : String
  peak_number : Nat
  number_reads_in_peak : Nat
  nreads_in_gene : Nat
  effective_length : Nat
  area_reads : Nat
  area_size : Nat
  size : Nat
  peak_length : Nat
deriving DecidableEq, Repr

/-- The dictionary returned by `call_peaks` for one gene: its read count
(`nreads`), the effective length stored on its location interval
(`loc.attrs` access), and the cluster list. -/
structure GeneResult where
  nreads : Nat
  effective_length : Nat
  clusters : List InCluster
deriving DecidableEq, Repr

/-- Python exceptions that the embedded functions can raise. -/
inductive PyError where
  | valueError : String → PyError
  | ioError : String → PyError
  | typeError : String → PyError
  | keyError : String → PyError
deriving DecidableEq, Repr

/-- Decidable equality for raised-or-returned computation results. -/
instance exceptDecidableEq {ε α : Type} [DecidableEq ε] [DecidableEq α] :
    DecidableEq (Except ε α) := fun a b =>
  match a, b with
  | Except.error e1, Except.error e2 =>
    if h : e1 = e2 then Decidable.isTrue (by rw [h])
    else Decidable.isFalse (by intro hc; cases hc; exact h rfl)
  | Except.error _, Except.ok _ => Decidable.isFalse (by intro hc; cases hc)
  | Except.ok _, Except.error _ => Decidable.isFalse (by intro hc; cases hc)
  | Except.ok v1, Except.ok v2 =>
    if h : v1 = v2 then Decidable.isTrue (by rw [h])
    else Decidable.isFalse (by intro hc; cases hc; exact h rfl)

/- ### Transcriptome-wide counters (count_transcriptome_reads / _length) -/

/-- Sum of `nreads` over the gene results, skipping `None` entries. -/
def count_transcriptome_reads (results : List (Option GeneResult)) : Nat :=
  results.foldl (fun acc r => match r with
    | none => acc
    | some g => acc + g.nreads) 0

/-- Sum of the effective lengths over the gene results, skipping `None`. -/
def count_transcriptome_length (results : List (Option GeneResult)) : Nat :=
  results.foldl (fun acc r => match r with
    | none => acc
    | some g => acc + g.effective_length) 0

/- ### make_peak_df (lines 433-440)

The loop subscripts each gene result without a `None` check, so the first
`None` entry raises a `TypeError`; otherwise the clusters are concatenated
in order. -/

/-- Error message for subscripting a `None` gene result. -/
def noneSubscriptMsg : String := "TypeError: NoneType has no such attribute"

/-- Flatten the gene results into one cluster table, raising on `None`. -/
def make_peak_df : List (Option GeneResult) → Except PyError (List InCluster)
  | [] => Except.ok []
  | none :: _ => Except.error (PyError.typeError noneSubscriptMsg)
  | some g :: rest => (make_peak_df rest).map (fun l => g.clusters ++ l)

/- ### Per-row scoring (filter_results, lines 477-488) -/

/-- Pandas row-wise `max` over the two p-value columns with `skipna=True`:
the transcript column is always defined, the superlocal column may be NaN
(modelled as `none`). -/
def row_max (t : ℚ) (s : Option ℚ) : ℚ :=
  match s with
  | none => t
  | some v => max t v

/-- Pandas row-wise `min` over the two p-value columns, skipping NaN. -/
def row_min (t : ℚ) (s : Option ℚ) : ℚ :=
  match s with
  | none => t
  | some v => min t v

/-- The final p-value rule of lines 485-488: classic mode takes the row
maximum, every other mode the row minimum. -/
def final_p_value_rule (algorithm : String) (t : ℚ) (s : Option ℚ) : ℚ :=
  if algorithm = "classic" then row_max t s else row_min t s

/-- One scored row of the cluster table after lines 477-488. -/
structure ScoredRow where
  cluster : InCluster
  peak_length : Nat
  transcriptome_poisson_p : Option ℚ
  transcript_poisson_p : ℚ
  superlocal_poisson_p : Option ℚ
  final_p_value : ℚ
deriving DecidableEq, Repr

/-- Score one cluster row: clamp the width in classic mode, compute the
three Poisson columns (the transcriptome and superlocal columns are NaN
when their flag is off), and derive the final p-value.  `pP` is the opaque
`poissonP(reads_in_universe, reads_in_peak, universe_size, peak_size)`. -/
def poisson_scored (pP : Nat → Nat → Nat → Nat → ℚ)
    (use_global_cutoff superlocal : Bool) (algorithm : String)
    (min_width transcriptome_size transcriptome_reads : Nat)
    (c : InCluster) : ScoredRow :=
  let plen := if algorithm = "classic" then max c.peak_length min_width else c.peak_length
  let gp := if use_global_cutoff then
    some (pP transcriptome_reads c.number_reads_in_peak transcriptome_size c.size) else none
  let tp := pP c.nreads_in_gene c.number_reads_in_peak c.effective_length c.size
  let sp := if superlocal then
    some (pP c.area_reads c.number_reads_in_peak c.area_size c.size) else none
  ⟨c, plen, gp, tp, sp, final_p_value_rule algorithm tp sp⟩

/- ### bh_correct (lines 443-452)

The dataframe is sorted ascending by final_p_value and given ranks 1..N.
Under Python 2, `len(df) / x.sort_rank` is integer floor division.  The
padj column is the running minimum of bh_corrected taken in descending
final_p_value order (the reverse of the ascending order), assigned back by
the original index, and `sort_index` restores the original row order. -/

/-- Running minimum over the bh_corrected column (`cummin`), seeded with
the given current minimum. -/
def padjPass {α : Type} (m : ℚ) : List (Nat × α × ℚ) → List (Nat × α × ℚ × ℚ)
  | [] => []
  | x :: rest =>
    let m2 := min m x.2.2
    (x.1, x.2.1, x.2.2, m2) :: padjPass m2 rest

/-- `cummin` of the bh_corrected column: the first row is its own minimum. -/
def padjFrom {α : Type} : List (Nat × α × ℚ) → List (Nat × α × ℚ × ℚ)
  | [] => []
  | x :: rest => padjPass x.2.2 (x :: rest)

/-- The multiple-testing correction of lines 443-452, over any row type
with a final_p_value key.  Returns, in original row order, each row with
its bh_corrected and padj values. -/
def bh_correct {α : Type} (key : α → ℚ) (rows : List α) : List (α × ℚ × ℚ) :=
  let n := rows.length
  let asc := List.insertionSort (fun a b => key a.2 ≤ key b.2) rows.enum
  let ranked := asc.enum.map (fun p => (p.2.1, p.2.2, p.1 + 1))
  let withBh := ranked.map (fun q => (q.1, q.2.1, min (((n / q.2.2 : Nat) : ℚ) * key q.2.1) 1))
  let withPadj := padjFrom withBh.reverse
  let restored := List.insertionSort (fun a b => a.1 ≤ b.1) withPadj
  restored.map (fun q => (q.2.1, q.2.2.1, q.2.2.2))

/- ### write_peak and filter_results (lines 417-427 and 454-497) -/

/-- The eight fields of one output record.  The p-value field is the raw
final_p_value (the source notes itself that padj is not the value
printed). -/
structure WrittenPeak where
  chrom : String
  genomic_start : Nat
  genomic_stop : Nat
  name : String
  p_value : ℚ
  strand : String
  thick_start : Nat
  thick_stop : Nat
deriving DecidableEq, Repr

/-- Format one surviving row (write_peak, lines 417-427). -/
def write_peak (r : ScoredRow) : WrittenPeak :=
  ⟨r.cluster.chrom, r.cluster.genomic_start, r.cluster.genomic_stop,
   r.cluster.gene_name ++ "_" ++ toString r.cluster.peak_number ++ "_"
     ++ toString r.cluster.number_reads_in_peak,
   r.final_p_value, r.cluster.strand, r.cluster.thick_start, r.cluster.thick_stop⟩

/-- The output of filter_results: any printed message plus the peaks. -/
structure FilterOutput where
  messages : List String
  peaks : List WrittenPeak
deriving DecidableEq, Repr

/-- filter_results (lines 454-497).  Flattens the gene results (raising on
a `None` entry), returns early with a printed message when the table is
empty, scores every row, applies bh_correct when the correction flag is
set, and then selects the rows with `padj < poisson_cutoff`.  When the
correction flag is off no padj column was ever created, so the subscript
raises a `KeyError`. -/
def filter_results (pP : Nat → Nat → Nat → Nat → ℚ)
    (results : List (Option GeneResult)) (poisson_cutoff : ℚ)
    (transcriptome_size transcriptome_reads : Nat)
    (use_global_cutoff bonferroni_correct : Bool) (algorithm : String)
    (superlocal : Bool) (min_width : Nat) : Except PyError FilterOutput :=
  match make_peak_df results with
  | Except.error e => Except.error e
  | Except.ok peaks =>
    if peaks.length = 0 then
      Except.ok ⟨["no peaks detected in dataset"], []⟩
    else
      let scored := peaks.map (poisson_scored pP use_global_cutoff superlocal
        algorithm min_width transcriptome_size transcriptome_reads)
      if bonferroni_correct then
        let corrected := bh_correct (fun r => r.final_p_value) scored
        Except.ok ⟨[], (corrected.filter (fun r => r.2.2 < poisson_cutoff)).map
          (fun r => write_peak r.1)⟩
      else
        Except.error (PyError.keyError ("padj"))

/- ### Association lists standing in for Python dictionaries -/

/-- Update a key in an insertion-ordered association list: replace the
value in place when the key exists, append the entry otherwise.  `f`
receives the present value, `none` when the key is new (this models a
defaultdict access followed by an assignment). -/
def updAssoc {β : Type} (k : String) (f : Option β → β) :
    List (String × β) → List (String × β)
  | [] => [(k, f none)]
  | (k2, v) :: rest =>
    if k = k2 then (k2, f (some v)) :: rest else (k2, v) :: updAssoc k f rest

/-- Lookup in an association list. -/
def lookupA {β : Type} (k : String) : List (String × β) → Option β
  | [] => none
  | (k2, v) :: rest => if k = k2 then some v else lookupA k rest

/- ### build_transcript_data (lines 289-361) and its helpers -/

/-- One parsed line of a genes BED file (build_geneinfo keeps chromosome,
name, start, stop, strand). -/
structure BedGene where
  chrom : String
  name : String
  start : Nat
  stop : Nat
  strand : String
deriving DecidableEq, Repr

/-- One uniform gene record produced by build_transcript_data: a located
interval carrying a gene identifier and an effective length. -/
structure GeneInterval where
  chrom : String
  start : Nat
  stop : Nat
  strand : String
  gene_id : String
  effective_length : Nat
deriving DecidableEq, Repr

/-- The three bundled files of one species from the data directory. -/
structure SpeciesData where
  bed : List BedGene
  mrna : List (String × Nat)
  premrna : List (String × Nat)

/-- build_geneinfo: load the bed lines into a dictionary keyed by name
(later lines overwrite earlier ones with the same name). -/
def build_geneinfo (lines : List BedGene) : List (String × BedGene) :=
  lines.foldl (fun acc g => updAssoc g.name (fun _ => g) acc) []

/-- build_lengths: load the two-column length file into a dictionary. -/
def build_lengths (lines : List (String × Nat)) : List (String × Nat) :=
  lines.foldl (fun acc p => updAssoc p.1 (fun _ => p.2) acc) []

/-- Assemble the gene intervals from the two dictionaries; a gene missing
from the length dictionary raises a `KeyError` (line 359). -/
def assembleGeneList (genes : List (String × BedGene)) (lengths : List (String × Nat)) :
    Except PyError (List GeneInterval) :=
  match genes with
  | [] => Except.ok []
  | (name, g) :: rest =>
    match lookupA name lengths with
    | none => Except.error (PyError.keyError name)
    | some len =>
      (assembleGeneList rest lengths).map
        (fun l => ⟨g.chrom, g.start, g.stop, g.strand, name, len⟩ :: l)

/-- Error messages of build_transcript_data. -/
def missingInputMsg : String := "You must set either species or geneBed+geneMRNA+genePREMRNA"

/-- Error message for setting both species and a custom gene file. -/
def bothInputsMsg : String := "You should not set both geneBed and species"

/-- Error message for an unknown species without bundled defaults. -/
def noDefaultsMsg : String := "Defaults do not exist for your species"

/-- Error message for a missing length file after mode selection. -/
def noLengthFileMsg : String := "did not pass correct mRNA length file option"

/-- Error message for opening a `None` path. -/
def openNoneMsg : String := "coercing to Unicode: need string, NoneType found"

/-- build_transcript_data (lines 289-361): the two explicit configuration
checks, species-default assignment, length-file selection, and assembly.
`bundled` stands for the data-directory lookup (`clipper.data_file`),
returning `none` when the species has no bundled files. -/
def build_transcript_data (bundled : String → Option SpeciesData)
    (species : Option String) (gene_bed : Option (List BedGene))
    (gene_mrna gene_pre_mrna : Option (List (String × Nat)))
    (pre_mrna : Bool) : Except PyError (List GeneInterval) :=
  if species = none ∧ gene_bed = none ∧ (gene_mrna = none ∨ gene_pre_mrna = none) then
    Except.error (PyError.valueError missingInputMsg)
  else if species ≠ none ∧ gene_bed ≠ none then
    Except.error (PyError.valueError bothInputsMsg)
  else
    let assigned : Except PyError
        (Option (List BedGene) × Option (List (String × Nat)) × Option (List (String × Nat))) :=
      match species with
      | some s =>
        match bundled s with
        | none => Except.error (PyError.valueError noDefaultsMsg)
        | some d => Except.ok (some d.bed, some d.mrna, some d.premrna)
      | none => Except.ok (gene_bed, gene_mrna, gene_pre_mrna)
    match assigned with
    | Except.error e => Except.error e
    | Except.ok (bed2, mrna2, premrna2) =>
      match (if pre_mrna then premrna2 else mrna2) with
      | none => Except.error (PyError.ioError noLengthFileMsg)
      | some lens =>
        match bed2 with
        | none => Except.error (PyError.typeError openNoneMsg)
        | some bedlines =>
          assembleGeneList (build_geneinfo bedlines) (build_lengths lens)

/- ### build_transcript_data_gtf (lines 202-257) -/

/-- One line of a GTF file, restricted to the fields the function reads. -/
structure GtfLine where
  chrom : String
  feature : String
  start : Nat
  stop : Nat
  strand : String
  gene_id : String
  transcript_id : String
deriving DecidableEq, Repr

/-- The per-transcript aggregate built by the first loop: extremal
coordinates, latest chrom/strand/gene_id, summed exon lengths. -/
structure Transcript where
  chrom : String
  start : Nat
  stop : Nat
  strand : String
  gene_id : String
  mRNA_length : Nat
  transcript_id : String
deriving DecidableEq, Repr

/-- Fold one exon into a transcript aggregate.  The `none` case is the
defaultdict entry with infinite start and negatively infinite stop, so the
first exon seeds both coordinates. -/
def updateTranscript (e : GtfLine) : Option Transcript → Transcript
  | none => ⟨e.chrom, e.start, e.stop, e.strand, e.gene_id, e.stop - e.start, e.transcript_id⟩
  | some t => ⟨e.chrom, min t.start e.start, max t.stop e.stop, e.strand, e.gene_id,
      t.mRNA_length + (e.stop - e.start), e.transcript_id⟩

/-- The exon filter of line 223. -/
def exonsOf (lines : List GtfLine) : List GtfLine :=
  lines.filter (fun e => e.feature = "exon")

/-- The first loop (lines 222-232): group the exon lines by transcript
identifier, aggregating coordinates and mRNA length. -/
def gatherTranscripts (lines : List GtfLine) : List (String × Transcript) :=
  (exonsOf lines).foldl (fun acc e => updAssoc e.transcript_id (updateTranscript e) acc) []

/-- The genomic span `stop - start` compared by the selection loop. -/
def span (t : Transcript) : Nat := t.stop - t.start

/-- The span of the current best entry; the freshly created default entry
(start 0, stop 0) has span zero. -/
def spanOpt : Option Transcript → Nat
  | none => 0
  | some b => span b

/-- One step of the selection loop (lines 236-242): a transcript replaces
the current best only when strictly longer. -/
def pickLonger (t : Transcript) (cur : Option Transcript) : Option Transcript :=
  if spanOpt cur < span t then some t else cur

/-- Fold a list of exon lines into a transcript aggregate, starting from
the given current entry (this is the per-key effect of the first loop). -/
def aggExons (es : List GtfLine) (c : Option Transcript) : Option Transcript :=
  es.foldl (fun c e => some (updateTranscript e c)) c

/-- Fold a list of transcripts through the selection step, starting from
the given current best (the per-key effect of the second loop). -/
def bestOf (l : List Transcript) (c : Option Transcript) : Option Transcript :=
  l.foldl (fun c t => pickLonger t c) c

/-- The second loop: for each gene keep the transcript with the largest
span (a defaultdict entry that is never beaten stays at its default, which
the output loop then cannot format). -/
def selectLongest (ts : List (String × Transcript)) : List (String × Option Transcript) :=
  ts.foldl (fun acc p => updAssoc p.2.gene_id (fun c => pickLonger p.2 (Option.join c)) acc) []

/-- One output record of build_transcript_data_gtf. -/
structure GtfGeneRecord where
  chrom : String
  start : Nat
  stop : Nat
  strand : String
  gene_id : String
  transcript_id : String
  effective_length : Nat
deriving DecidableEq, Repr

/-- The output loop (lines 245-257): format every selected gene; a gene
whose entry is still the bare default dictionary lacks the transcript
fields and raises a `KeyError`. -/
def buildRecords (pre_mrna : Bool) :
    List (String × Option Transcript) → Except PyError (List GtfGeneRecord)
  | [] => Except.ok []
  | (_, none) :: _ => Except.error (PyError.keyError "chrom")
  | (_, some t) :: rest =>
    (buildRecords pre_mrna rest).map
      (fun l => ⟨t.chrom, t.start, t.stop, t.strand, t.gene_id, t.transcript_id,
        if pre_mrna then t.stop - t.start else t.mRNA_length⟩ :: l)

/-- build_transcript_data_gtf (lines 202-257). -/
def build_transcript_data_gtf (lines : List GtfLine) (pre_mrna : Bool) :
    Except PyError (List GtfGeneRecord) :=
  buildRecords pre_mrna (selectLongest (gatherTranscripts lines))

/- ### Concrete inputs used by witnesses and counterexamples -/

/-- A Poisson stub returning reads_in_peak / 2000, so final p-values can be
dialed in through the read counts. -/
def pPhalf : Nat → Nat → Nat → Nat → ℚ := fun _ k _ _ => (k : ℚ) / 2000

/-- A constant Poisson stub. -/
def pPconst : Nat → Nat → Nat → Nat → ℚ := fun _ _ _ _ => (1 : ℚ) / 100

/-- A cluster whose transcript p-value under `pPhalf` is 49/2000. -/
def clusterA : InCluster :=
  ⟨"chr1", 10, 20, 12, 18, "+", "G1", 0, 49, 100, 1000, 30, 500, 10, 10⟩

/-- A cluster whose transcript p-value under `pPhalf` is 51/1000. -/
def clusterB : InCluster :=
  ⟨"chr1", 40, 60, 45, 55, "+", "G1", 1, 102, 100, 1000, 30, 500, 20, 20⟩

/-- Scenario D input: one gene carrying the two clusters above. -/
def resultsD : List (Option GeneResult) := [some ⟨100, 1000, [clusterA, clusterB]⟩]

/-- A single-cluster result list for the disabled-correction path. -/
def resultsOne : List (Option GeneResult) := [some ⟨100, 1000, [clusterA]⟩]

/-- Scenario A input: three genes with effective lengths 100, 200, 700 and
read counts 5, 10, 85, none of them absent. -/
def resultsA : List (Option GeneResult) :=
  [some ⟨5, 100, []⟩, some ⟨10, 200, []⟩, some ⟨85, 700, []⟩]

/-- A bundled-data stub with no species at all. -/
def noBundled : String → Option SpeciesData := fun _ => none

/-- One bed gene line for the build_transcript_data counterexample. -/
def bedG1 : BedGene := ⟨"chr1", "g1", 10, 110, "+"⟩

/-- A two-transcript GTF input for one gene: transcript T1 has two exons
spanning 0-50 in total, transcript T2 one exon spanning 5-100. -/
def gtfLinesW : List GtfLine :=
  [⟨"chr1", "exon", 0, 10, "+", "G", "T1"⟩,
   ⟨"chr1", "exon", 20, 50, "+", "G", "T1"⟩,
   ⟨"chr1", "exon", 5, 100, "+", "G", "T2"⟩,
   ⟨"chr1", "gene", 0, 100, "+", "G", "T1"⟩]

/- ### Helper lemmas -/

/-- The pooled collection loop keeps exactly the successful outcomes, in
order. -/
theorem pooled_collect_eq {α : Type} (outs : List (TaskOutcome α)) :
    pooled_collect outs = outs.filterMap (fun o => match o with
      | TaskOutcome.success v => some v
      | _ => none) := by
  have h : ∀ (l : List (TaskOutcome α)) (acc : List α),
      l.foldl (fun acc o => match o with
        | TaskOutcome.success v => acc ++ [v]
        | _ => acc) acc
        = acc ++ l.filterMap (fun o => match o with
            | TaskOutcome.success v => some v
            | _ => none) := by
    intro l
    induction l with
    | nil => intro acc; simp
    | cons x xs ih =>
      intro acc
      cases x with
      | success v => simp [List.filterMap_cons, ih]
      | failure => simp [List.filterMap_cons, ih]
      | timeout => simp [List.filterMap_cons, ih]
  simpa [pooled_collect] using h outs []

/-- Accumulator form of the read counter. -/
theorem count_reads_general (l : List (Option GeneResult)) :
    ∀ (a : Nat),
      l.foldl (fun acc r => match r with
        | none => acc
        | some g => acc + g.nreads) a
        = a + ((l.filterMap id).map (fun g => g.nreads)).sum := by
  induction l with
  | nil => intro a; simp
  | cons x xs ih =>
    intro a
    cases x with
    | none => simpa [List.filterMap_cons] using ih a
    | some g => simp [List.filterMap_cons, ih, Nat.add_assoc]

/-- Accumulator form of the length counter. -/
theorem count_length_general (l : List (Option GeneResult)) :
    ∀ (a : Nat),
      l.foldl (fun acc r => match r with
        | none => acc
        | some g => acc + g.effective_length) a
        = a + ((l.filterMap id).map (fun g => g.effective_length)).sum := by
  induction l with
  | nil => intro a; simp
  | cons x xs ih =>
    intro a
    cases x with
    | none => simpa [List.filterMap_cons] using ih a
    | some g => simp [List.filterMap_cons, ih, Nat.add_assoc]

/-- Flattening raises on the first absent gene result. -/
theorem make_peak_df_error_of_none (results : List (Option GeneResult)) :
    none ∈ results →
    make_peak_df results = Except.error (PyError.typeError noneSubscriptMsg) := by
  induction results with
  | nil => intro h; cases h
  | cons x xs ih =>
    intro h
    cases x with
    | none => rfl
    | some g =>
      have hx : none ∈ xs := by
        cases h with
        | tail _ h2 => exact h2
      simp [make_peak_df, ih hx, Except.map]

/-- Flattening returns normally only when every gene result is present. -/
theorem make_peak_df_ok_no_none (results : List (Option GeneResult)) :
    ∀ out, make_peak_df results = Except.ok out → ∀ r ∈ results, r ≠ none := by
  induction results with
  | nil => intro out _ r hr; cases hr
  | cons x xs ih =>
    intro out h r hr
    cases x with
    | none => simp [make_peak_df] at h
    | some g =>
      cases hr with
      | head => simp
      | tail _ h2 =>
        cases hmk : make_peak_df xs with
        | error e => rw [make_peak_df, hmk] at h; simp [Except.map] at h
        | ok o2 => exact ih o2 hmk r h2

/- ### Claim theorems -/

/-- C1 (counterexample): for a single task whose detector times out, the
pooled scheduler collects zero entries, not one explicit absence — the
output sequence is shorter than the task sequence. -/
theorem C1_pooled_length_counterexample :
    (pooled_run (fun _ => (TaskOutcome.timeout : TaskOutcome Nat)) [(0 : Nat)]).length ≠
      [(0 : Nat)].length := by
  decide

/-- C1 (amended): the pooled path collects, in submission order, exactly
the values of the tasks whose outcome is a success; a timed-out or failing
task contributes no entry, so the output length equals the number of
successful tasks (which can be smaller than the task count).  The debug
path produces exactly one entry per task in submission order. -/
theorem C1_pooled_submission_order {τ α : Type} (behave : τ → TaskOutcome α)
    (tasks : List τ) (detect : τ → α) :
    pooled_run behave tasks = tasks.filterMap (fun t => match behave t with
      | TaskOutcome.success v => some v
      | _ => none) ∧
    (pooled_run behave tasks).length = (tasks.filter (fun t => match behave t with
      | TaskOutcome.success _ => true
      | _ => false)).length ∧
    (debug_run detect tasks).length = tasks.length := by
  have h1 : pooled_run behave tasks = tasks.filterMap (fun t => match behave t with
      | TaskOutcome.success v => some v
      | _ => none) := by
    rw [pooled_run, pooled_collect_eq, List.filterMap_map]
    rfl
  have h2 : ∀ (l : List τ),
      (l.filterMap (fun t => match behave t with
        | TaskOutcome.success v => some v
        | _ => none)).length
        = (l.filter (fun t => match behave t with
            | TaskOutcome.success _ => true
            | _ => false)).length := by
    intro l
    induction l with
    | nil => rfl
    | cons x xs ih =>
      cases hbx : behave x <;>
        simp [List.filterMap_cons, List.filter_cons, hbx, ih]
  exact ⟨h1, by rw [h1]; exact h2 tasks, by simp [debug_run]⟩

/-- C6: with a pure detector (every task succeeds and returns the
detector's value), the pooled path and the debug path produce identical
result sequences. -/
theorem C6_debug_pooled_equiv {τ α : Type} (detect : τ → α) (tasks : List τ) :
    pooled_run (fun t => TaskOutcome.success (detect t)) tasks = debug_run detect tasks := by
  rw [pooled_run, pooled_collect_eq, List.filterMap_map]
  induction tasks with
  | nil => rfl
  | cons x xs ih => simpa [List.filterMap_cons, debug_run] using ih

/-- C5: the transcriptome read counter sums `nreads` over the non-absent
gene results and the length counter sums the effective lengths; on the
three-gene example with lengths 100, 200, 700 and reads 5, 10, 85 the
totals are 100 reads and size 1000. -/
theorem C5_transcriptome_aggregates :
    (∀ results : List (Option GeneResult),
      count_transcriptome_reads results
        = ((results.filterMap id).map (fun g => g.nreads)).sum ∧
      count_transcriptome_length results
        = ((results.filterMap id).map (fun g => g.effective_length)).sum) ∧
    count_transcriptome_reads resultsA = 100 ∧
    count_transcriptome_length resultsA = 1000 := by
  refine ⟨fun results => ⟨?_, ?_⟩, by decide, by decide⟩
  · simpa [count_transcriptome_reads] using count_reads_general results 0
  · simpa [count_transcriptome_length] using count_length_general results 0

/-- C10: an absent entry in the result sequence makes the flattening step
raise a type error rather than skip it; flattening (and hence filtering)
returns normally only when every entry is present; the two transcriptome
counters do skip absent entries. -/
theorem C10_absent_entry_fails_flattening (results : List (Option GeneResult)) :
    (none ∈ results →
      make_peak_df results = Except.error (PyError.typeError noneSubscriptMsg)) ∧
    (∀ out, make_peak_df results = Except.ok out → ∀ r ∈ results, r ≠ none) ∧
    count_transcriptome_reads (none :: results) = count_transcriptome_reads results ∧
    count_transcriptome_length (none :: results) = count_transcriptome_length results ∧
    (∀ pP pc ts tr ug bc alg sl mw out,
      filter_results pP results pc ts tr ug bc alg sl mw = Except.ok out →
      ∀ r ∈ results, r ≠ none) := by
  refine ⟨make_peak_df_error_of_none results, make_peak_df_ok_no_none results,
    rfl, rfl, ?_⟩
  intro pP pc ts tr ug bc alg sl mw out h r hr
  cases hmk : make_peak_df results with
  | error e =>
    rw [filter_results, hmk] at h
    simp at h
  | ok peaks => exact make_peak_df_ok_no_none results peaks hmk r hr

/-- C10 witness: at the concrete one-entry absent input, flattening raises
the type error. -/
theorem C10_absent_entry_fails_flattening_witness :
    make_peak_df [none] = Except.error (PyError.typeError noneSubscriptMsg) :=
  (C10_absent_entry_fails_flattening [none]).1 (by simp)

/-- C8: when the flattened cluster table is empty, filtering returns an
empty result together with the printed no-peaks message, without raising,
for every parameter combination — in particular no p-value scoring,
correction, or padj lookup is reached. -/
theorem C8_empty_table_early_return (pP : Nat → Nat → Nat → Nat → ℚ)
    (results : List (Option GeneResult)) (pc : ℚ) (ts tr : Nat) (ug bc : Bool)
    (alg : String) (sl : Bool) (mw : Nat)
    (hempty : make_peak_df results = Except.ok []) :
    filter_results pP results pc ts tr ug bc alg sl mw =
      Except.ok ⟨["no peaks detected in dataset"], []⟩ := by
  simp [filter_results, hempty]

/-- C8 witness: the three-gene input with no clusters returns the empty
output and the message, even with correction disabled (which would raise a
KeyError were the later filtering step reached). -/
theorem C8_empty_table_early_return_witness :
    filter_results pPconst resultsA (1/20) 0 0 false false ("spline") false 50 =
      Except.ok ⟨["no peaks detected in dataset"], []⟩ :=
  C8_empty_table_early_return pPconst resultsA (1/20) 0 0 false false ("spline") false 50
    (by decide)

/-- C4: the final p-value of a scored row is the transcript p-value when
superlocal is disabled (its column is undefined); with superlocal enabled
it is the maximum of the two defined p-values in classic mode and the
minimum in every other mode; and it always equals one of the defined
candidate p-values, never the undefined column. -/
theorem C4_final_p_value_selection (pP : Nat → Nat → Nat → Nat → ℚ)
    (ug sl : Bool) (alg : String) (mw ts tr : Nat) (c : InCluster) :
    (sl = false →
      (poisson_scored pP ug sl alg mw ts tr c).superlocal_poisson_p = none ∧
      (poisson_scored pP ug sl alg mw ts tr c).final_p_value
        = (poisson_scored pP ug sl alg mw ts tr c).transcript_poisson_p) ∧
    (sl = true → ∃ v,
      (poisson_scored pP ug sl alg mw ts tr c).superlocal_poisson_p = some v ∧
      (alg = "classic" →
        (poisson_scored pP ug sl alg mw ts tr c).final_p_value
          = max (poisson_scored pP ug sl alg mw ts tr c).transcript_poisson_p v) ∧
      (alg ≠ "classic" →
        (poisson_scored pP ug sl alg mw ts tr c).final_p_value
          = min (poisson_scored pP ug sl alg mw ts tr c).transcript_poisson_p v)) ∧
    ((poisson_scored pP ug sl alg mw ts tr c).final_p_value
        = (poisson_scored pP ug sl alg mw ts tr c).transcript_poisson_p ∨
      ∃ v, (poisson_scored pP ug sl alg mw ts tr c).superlocal_poisson_p = some v ∧
        (poisson_scored pP ug sl alg mw ts tr c).final_p_value = v) := by
  refine ⟨?_, ?_, ?_⟩
  · intro hsl
    subst hsl
    simp [poisson_scored, final_p_value_rule, row_max, row_min]
  · intro hsl
    subst hsl
    refine ⟨pP c.area_reads c.number_reads_in_peak c.area_size c.size,
      by simp [poisson_scored], ?_, ?_⟩
    · intro halg
      simp [poisson_scored, final_p_value_rule, halg, row_max]
    · intro halg
      simp [poisson_scored, final_p_value_rule, halg, row_min]
  · cases sl with
    | false => left; simp [poisson_scored, final_p_value_rule, row_max, row_min]
    | true =>
      by_cases halg : alg = "classic"
      · rcases max_choice (pP c.nreads_in_gene c.number_reads_in_peak c.effective_length c.size)
          (pP c.area_reads c.number_reads_in_peak c.area_size c.size) with hm | hm
        · left; simp [poisson_scored, final_p_value_rule, halg, row_max, hm]
        · right
          refine ⟨pP c.area_reads c.number_reads_in_peak c.area_size c.size,
            by simp [poisson_scored], ?_⟩
          simpa [poisson_scored, final_p_value_rule, halg, row_max] using hm
      · rcases min_choice (pP c.nreads_in_gene c.number_reads_in_peak c.effective_length c.size)
          (pP c.area_reads c.number_reads_in_peak c.area_size c.size) with hm | hm
        · left; simp [poisson_scored, final_p_value_rule, halg, row_min, hm]
        · right
          refine ⟨pP c.area_reads c.number_reads_in_peak c.area_size c.size,
            by simp [poisson_scored], ?_⟩
          simpa [poisson_scored, final_p_value_rule, halg, row_min] using hm

/-- C4 witness: with superlocal disabled, the final p-value of the
concrete scored row equals its transcript p-value. -/
theorem C4_final_p_value_selection_witness :
    (poisson_scored pPhalf false false ("spline") 50 0 0 clusterA).final_p_value
      = (poisson_scored pPhalf false false ("spline") 50 0 0 clusterA).transcript_poisson_p :=
  ((C4_final_p_value_selection pPhalf false false ("spline") 50 0 0 clusterA).1 rfl).2

unseal Rat.mul Rat.inv Rat.add Rat.sub in
/-- C2: evaluating the correction on the three-row table with final
p-values 0.1, 0.2, 0.3 shows the Python 2 integer division: the rank-2 row
gets bh_corrected = min(1, (3 // 2) * 0.2) = 0.2 (and padj 0.2), whereas
the claimed formula min(1, (3 / 2) * 0.2) gives 0.3.  The first component
is the full output (row, bh_corrected, padj) in original order; the second
states that the computed bh value differs from the claimed one. -/
theorem C2_bh_floor_division :
    bh_correct (fun p => p) [1/10, 1/5, 3/10] =
      [((1 : ℚ)/10, 3/10, 1/5), (1/5, 1/5, 1/5), (3/10, 3/10, 3/10)] ∧
    ¬ ((1 : ℚ)/5 = min (((3 : ℚ)/2) * (1/5)) 1) := by
  constructor
  · decide
  · decide

unseal Rat.mul Rat.inv Rat.add Rat.sub in
/-- C3 (counterexample): with correction disabled and a non-empty table
whose single row has final p-value 1/100, strictly below the cutoff 1/20,
the claim predicts that the row is kept; the code instead raises a
KeyError because no padj column was ever created. -/
theorem C3_disabled_correction_keyerror :
    filter_results pPconst resultsOne (1/20) 0 0 false false ("spline") false 50 =
      Except.error (PyError.keyError ("padj")) ∧
    (poisson_scored pPconst false false ("spline") 50 0 0 clusterA).final_p_value < 1/20 := by
  constructor
  · decide
  · decide

/-- C3 (amended): when correction is enabled, filtering returns normally
and keeps exactly the corrected rows whose padj is strictly below the
cutoff; when correction is disabled the padj subscript raises a KeyError
(the raw final p-value is never consulted). -/
theorem C3_padj_strict_filter (pP : Nat → Nat → Nat → Nat → ℚ)
    (results : List (Option GeneResult)) (pc : ℚ) (ts tr : Nat) (ug : Bool)
    (alg : String) (sl : Bool) (mw : Nat) (peaks : List InCluster)
    (hok : make_peak_df results = Except.ok peaks) (hne : peaks ≠ []) :
    (∃ rows, filter_results pP results pc ts tr ug true alg sl mw = Except.ok ⟨[], rows⟩ ∧
      ∀ w, w ∈ rows ↔ ∃ r ∈ bh_correct (fun s => s.final_p_value)
          (peaks.map (poisson_scored pP ug sl alg mw ts tr)),
        r.2.2 < pc ∧ w = write_peak r.1) ∧
    filter_results pP results pc ts tr ug false alg sl mw =
      Except.error (PyError.keyError ("padj")) := by
  have hlen : ¬ peaks.length = 0 := by
    simpa [List.length_eq_zero] using hne
  constructor
  · refine ⟨((bh_correct (fun s => s.final_p_value)
      (peaks.map (poisson_scored pP ug sl alg mw ts tr))).filter
        (fun r => r.2.2 < pc)).map (fun r => write_peak r.1), ?_, ?_⟩
    · simp [filter_results, hok, hlen]
    · intro w
      simp only [List.mem_map, List.mem_filter, decide_eq_true_eq]
      constructor
      · rintro ⟨r, ⟨hr, hlt⟩, hw⟩
        exact ⟨r, hr, hlt, hw.symm⟩
      · rintro ⟨r, hr, hlt, hw⟩
        exact ⟨r, ⟨hr, hlt⟩, hw.symm⟩
  · simp [filter_results, hok, hlen]

unseal Rat.mul Rat.inv Rat.add Rat.sub in
/-- C3 witness (scenario D): two clusters whose padj values come out as
0.049 and 0.051 with cutoff 0.05 — exactly the first survives. -/
theorem C3_padj_strict_filter_witness :
    ∃ rows, filter_results pPhalf resultsD (1/20) 0 0 false true ("spline") false 50 =
        Except.ok ⟨[], rows⟩ ∧
      write_peak (poisson_scored pPhalf false false ("spline") 50 0 0 clusterA) ∈ rows ∧
      write_peak (poisson_scored pPhalf false false ("spline") 50 0 0 clusterB) ∉ rows := by
  obtain ⟨⟨rows, heq, hmem⟩, _⟩ := C3_padj_strict_filter pPhalf resultsD (1/20) 0 0 false
    ("spline") false 50 [clusterA, clusterB] (by decide) (by decide)
  refine ⟨rows, heq, (hmem _).mpr (by decide), fun hin => ?_⟩
  exact absurd ((hmem _).mp hin) (by decide)

/-- C9 (counterexample): an incomplete custom selection — a gene file plus
only the mRNA length file, with the pre-mRNA flag off — selects none of
the three input modes completely, yet build_transcript_data accepts it and
returns a gene list instead of raising a configuration error. -/
theorem C9_incomplete_custom_accepted :
    build_transcript_data noBundled none (some [bedG1]) (some [("g1", 100)]) none false =
      Except.ok [⟨"chr1", 10, 110, "+", "g1", 100⟩] := by
  decide

/-- C9 (amended): the configuration checks the function actually performs:
it raises a value error when species and gene file are absent and at least
one length file is absent, and when species and gene file are both
supplied; with no species, a gene file, and no length file matching the
pre-mRNA flag it raises an IO error rather than a configuration error. -/
theorem C9_config_checks (bundled : String → Option SpeciesData)
    (species : Option String) (bed : Option (List BedGene))
    (mrna premrna : Option (List (String × Nat))) (pre : Bool) :
    (species = none → bed = none → (mrna = none ∨ premrna = none) →
      build_transcript_data bundled species bed mrna premrna pre =
        Except.error (PyError.valueError missingInputMsg)) ∧
    (species ≠ none → bed ≠ none →
      build_transcript_data bundled species bed mrna premrna pre =
        Except.error (PyError.valueError bothInputsMsg)) ∧
    (species = none → bed ≠ none → (if pre then premrna else mrna) = none →
      build_transcript_data bundled species bed mrna premrna pre =
        Except.error (PyError.ioError noLengthFileMsg)) := by
  refine ⟨?_, ?_, ?_⟩
  · intro h1 h2 h3
    simp [build_transcript_data, h1, h2, h3]
  · intro h1 h2
    simp [build_transcript_data, h1, h2]
  · intro h1 h2 h3
    subst h1
    obtain ⟨b, hb⟩ := Option.ne_none_iff_exists.mp h2
    subst hb
    cases pre with
    | false =>
      simp only [Bool.false_eq_true, if_false] at h3
      simp [build_transcript_data, h3]
    | true =>
      simp only [if_true] at h3
      simp [build_transcript_data, h3]

/-- C9 witness: setting both a species and a custom gene file raises the
mutual-exclusion value error. -/
theorem C9_config_checks_witness :
    build_transcript_data noBundled (some ("hg19")) (some []) none none true =
      Except.error (PyError.valueError bothInputsMsg) :=
  (C9_config_checks noBundled (some ("hg19")) (some []) none none true).2.1
    (by simp) (by simp)

/- ### Association-list lemmas for the GTF grouping loops -/

/-- Lookup after an update: the updated key now holds the new value, every
other key is unchanged. -/
theorem lookupA_updAssoc {β : Type} (k k2 : String) (f : Option β → β)
    (m : List (String × β)) :
    lookupA k (updAssoc k2 f m) =
      if k = k2 then some (f (lookupA k2 m)) else lookupA k m := by
  induction m with
  | nil => by_cases h : k = k2 <;> simp [updAssoc, lookupA, h]
  | cons p rest ih =>
    obtain ⟨k3, v⟩ := p
    by_cases h2 : k2 = k3
    · subst h2
      by_cases h : k = k2 <;> simp [updAssoc, lookupA, h]
    · by_cases h : k = k3
      · have hk2 : ¬ k = k2 := fun hh => h2 (hh.symm.trans h)
        simp [updAssoc, lookupA, h2, h, hk2, show ¬ k3 = k2 from fun hh => h2 hh.symm]
      · simp [updAssoc, lookupA, h2, h, ih]

/-- The keys after an update: unchanged when the key was present, the key
appended otherwise. -/
theorem updAssoc_keys {β : Type} (k : String) (f : Option β → β)
    (m : List (String × β)) :
    (updAssoc k f m).map Prod.fst =
      if k ∈ m.map Prod.fst then m.map Prod.fst else m.map Prod.fst ++ [k] := by
  induction m with
  | nil => simp [updAssoc]
  | cons p rest ih =>
    obtain ⟨k3, v⟩ := p
    by_cases h : k = k3
    · subst h; simp [updAssoc]
    · by_cases hm : k ∈ rest.map Prod.fst <;> simp [updAssoc, h, ih, hm]

/-- Updates preserve distinctness of the keys. -/
theorem updAssoc_keys_nodup {β : Type} (k : String) (f : Option β → β)
    (m : List (String × β)) (h : (m.map Prod.fst).Nodup) :
    ((updAssoc k f m).map Prod.fst).Nodup := by
  rw [updAssoc_keys]
  by_cases hm : k ∈ m.map Prod.fst
  · simpa [hm] using h
  · simp only [hm, if_false]
    simpa [List.nodup_append, hm] using h

/-- Keys of the whole grouping fold are distinct. -/
theorem foldl_updAssoc_keys_nodup {γ β : Type} (key : γ → String)
    (upd : γ → Option β → β) :
    ∀ (l : List γ) (acc : List (String × β)), (acc.map Prod.fst).Nodup →
      ((l.foldl (fun a e => updAssoc (key e) (upd e) a) acc).map Prod.fst).Nodup := by
  intro l
  induction l with
  | nil => intro acc h; simpa using h
  | cons x xs ih =>
    intro acc h
    exact ih (updAssoc (key x) (upd x) acc) (updAssoc_keys_nodup (key x) (upd x) acc h)

/-- A key is in the fold exactly when it was in the accumulator or some
element maps to it. -/
theorem foldl_updAssoc_mem_keys {γ β : Type} (key : γ → String)
    (upd : γ → Option β → β) :
    ∀ (l : List γ) (acc : List (String × β)) (k : String),
      k ∈ (l.foldl (fun a e => updAssoc (key e) (upd e) a) acc).map Prod.fst ↔
        k ∈ acc.map Prod.fst ∨ ∃ e ∈ l, key e = k := by
  intro l
  induction l with
  | nil => intro acc k; simp
  | cons x xs ih =>
    intro acc k
    rw [List.foldl_cons, ih]
    rw [updAssoc_keys]
    by_cases hm : key x ∈ acc.map Prod.fst
    · simp only [hm, if_true]
      constructor
      · rintro (h | h)
        · exact Or.inl h
        · exact Or.inr ⟨_, List.mem_cons_of_mem _ h.choose_spec.1, h.choose_spec.2⟩
      · rintro (h | ⟨e, he, hke⟩)
        · exact Or.inl h
        · rcases List.mem_cons.mp he with rfl | he2
          · exact Or.inl (hke ▸ hm)
          · exact Or.inr ⟨e, he2, hke⟩
    · simp only [hm, if_false, List.mem_append, List.mem_singleton]
      constructor
      · rintro ((h | h) | h)
        · exact Or.inl h
        · exact Or.inr ⟨x, List.mem_cons_self _ _, h.symm⟩
        · exact Or.inr ⟨_, List.mem_cons_of_mem _ h.choose_spec.1, h.choose_spec.2⟩
      · rintro (h | ⟨e, he, hke⟩)
        · exact Or.inl (Or.inl h)
        · rcases List.mem_cons.mp he with rfl | he2
          · exact Or.inl (Or.inr hke.symm)
          · exact Or.inr ⟨e, he2, hke⟩

/-- The value of one key through the fold: it is the sub-fold of exactly
the elements mapping to that key, over the key's starting value. -/
theorem foldl_updAssoc_lookupA {γ β : Type} (key : γ → String)
    (upd : γ → Option β → β) :
    ∀ (l : List γ) (acc : List (String × β)) (k : String),
      lookupA k (l.foldl (fun a e => updAssoc (key e) (upd e) a) acc) =
        (l.filter (fun e => key e = k)).foldl (fun c e => some (upd e c)) (lookupA k acc) := by
  intro l
  induction l with
  | nil => intro acc k; simp
  | cons x xs ih =>
    intro acc k
    rw [List.foldl_cons, ih, lookupA_updAssoc]
    by_cases h : key x = k
    · subst h
      simp [List.filter_cons]
    · simp [List.filter_cons, h, Ne.symm h]

/-- A successful lookup certifies membership. -/
theorem lookupA_mem {β : Type} :
    ∀ (m : List (String × β)) (k : String) (v : β),
      lookupA k m = some v → (k, v) ∈ m := by
  intro m
  induction m with
  | nil => intro k v h; simp [lookupA] at h
  | cons p rest ih =>
    intro k v h
    obtain ⟨k2, w⟩ := p
    by_cases hk : k = k2
    · subst hk
      rw [lookupA, if_pos rfl] at h
      obtain rfl : w = v := Option.some.inj h
      exact List.mem_cons_self _ _
    · rw [lookupA, if_neg hk] at h
      exact List.mem_cons_of_mem _ (ih k v h)

/-- With distinct keys, membership determines the lookup. -/
theorem mem_lookupA_of_nodup {β : Type} :
    ∀ (m : List (String × β)), (m.map Prod.fst).Nodup →
      ∀ (k : String) (v : β), (k, v) ∈ m → lookupA k m = some v := by
  intro m
  induction m with
  | nil => intro _ k v h; cases h
  | cons p rest ih =>
    intro hnd k v h
    obtain ⟨k2, w⟩ := p
    have hnd2 : k2 ∉ rest.map Prod.fst ∧ (rest.map Prod.fst).Nodup := by
      simpa [List.nodup_cons] using hnd
    rcases List.mem_cons.mp h with heq | hmem
    · injection heq with h1 h2
      subst h1
      subst h2
      simp [lookupA]
    · have hk : k ≠ k2 := by
        intro hkk
        subst hkk
        exact hnd2.1 (List.mem_map.mpr ⟨(k, v), hmem, rfl⟩)
      rw [lookupA, if_neg hk]
      exact ih hnd2.2 k v hmem

/-- A present key has a value. -/
theorem lookupA_isSome_of_mem_keys {β : Type} :
    ∀ (m : List (String × β)) (k : String), k ∈ m.map Prod.fst →
      ∃ v, lookupA k m = some v := by
  intro m
  induction m with
  | nil => intro k h; simp at h
  | cons p rest ih =>
    intro k h
    obtain ⟨k2, w⟩ := p
    by_cases hk : k = k2
    · exact ⟨w, by simp [lookupA, hk]⟩
    · rw [lookupA, if_neg hk]
      apply ih
      have h2 : k ∈ k2 :: rest.map Prod.fst := by simpa using h
      rcases List.mem_cons.mp h2 with heq | hmem
      · exact absurd heq hk
      · exact hmem

/- ### Aggregation and selection lemmas for build_transcript_data_gtf -/

/-- Starting from a seeded aggregate, folding exons extends the summed
length, only widens the coordinate envelope, and covers every folded exon;
the gene identifier ends as the seed's or some folded exon's. -/
theorem aggExons_spec (es : List GtfLine) :
    ∀ (t0 : Transcript),
      ∃ t, aggExons es (some t0) = some t ∧
        t.mRNA_length = t0.mRNA_length + (es.map (fun e => e.stop - e.start)).sum ∧
        t.start ≤ t0.start ∧ t0.stop ≤ t.stop ∧
        (∀ e ∈ es, t.start ≤ e.start ∧ e.stop ≤ t.stop) ∧
        (t.gene_id = t0.gene_id ∨ t.gene_id ∈ es.map (fun e => e.gene_id)) := by
  induction es with
  | nil =>
    intro t0
    exact ⟨t0, rfl, by simp, le_refl _, le_refl _, by simp, Or.inl rfl⟩
  | cons e es ih =>
    intro t0
    obtain ⟨t, ht, hm, hs, hp, hall, hg⟩ := ih (updateTranscript e (some t0))
    have hstep : aggExons (e :: es) (some t0) =
        aggExons es (some (updateTranscript e (some t0))) := rfl
    refine ⟨t, hstep.trans ht, ?_, ?_, ?_, ?_, ?_⟩
    · simp only [updateTranscript] at hm
      simp [hm, List.sum_cons, Nat.add_assoc]
    · exact le_trans hs (by simp [updateTranscript, min_le_left])
    · exact le_trans (by simp [updateTranscript, le_max_left]) hp
    · intro e2 he2
      rcases List.mem_cons.mp he2 with rfl | he3
      · constructor
        · exact le_trans hs (by simp [updateTranscript, min_le_right])
        · exact le_trans (by simp [updateTranscript, le_max_right]) hp
      · exact hall e2 he3
    · rcases hg with hg | hg
      · right
        simp only [updateTranscript] at hg
        simp [hg]
      · right
        exact List.mem_cons_of_mem _ hg

/-- Folding a non-empty exon group from the default entry yields an
aggregate whose summed length is the total exon length, whose envelope
covers every exon, and whose gene identifier comes from one of the
exons. -/
theorem aggExons_none_spec (es : List GtfLine) (hne : es ≠ []) :
    ∃ t, aggExons es none = some t ∧
      t.mRNA_length = (es.map (fun e => e.stop - e.start)).sum ∧
      (∀ e ∈ es, t.start ≤ e.start ∧ e.stop ≤ t.stop) ∧
      t.gene_id ∈ es.map (fun e => e.gene_id) := by
  cases es with
  | nil => exact absurd rfl hne
  | cons e es2 =>
    obtain ⟨t, ht, hm, hs, hp, hall, hg⟩ := aggExons_spec es2 (updateTranscript e none)
    have hstep : aggExons (e :: es2) none =
        aggExons es2 (some (updateTranscript e none)) := rfl
    refine ⟨t, hstep.trans ht, ?_, ?_, ?_⟩
    · simp only [updateTranscript] at hm
      simp [hm, List.sum_cons]
    · intro e2 he2
      rcases List.mem_cons.mp he2 with rfl | he3
      · exact ⟨le_trans hs (by simp [updateTranscript]), le_trans (by simp [updateTranscript]) hp⟩
      · exact hall e2 he3
    · rcases hg with hg | hg
      · simp only [updateTranscript] at hg
        simp [hg]
      · exact List.mem_cons_of_mem _ hg

/-- A non-empty aggregate of exons with positive extent has positive
span. -/
theorem aggExons_span_pos (es : List GtfLine) (hne : es ≠ [])
    (hpos : ∀ e ∈ es, e.start < e.stop) :
    ∀ t, aggExons es none = some t → 0 < span t := by
  intro t ht
  obtain ⟨t2, ht2, _, hall, _⟩ := aggExons_none_spec es hne
  obtain rfl : t2 = t := Option.some.inj (ht2.symm.trans ht)
  cases es with
  | nil => exact absurd rfl hne
  | cons e es2 =>
    have h1 := hall e (List.mem_cons_self _ _)
    have h2 := hpos e (List.mem_cons_self _ _)
    exact Nat.sub_pos_of_lt (lt_of_le_of_lt h1.1 (lt_of_lt_of_le h2 h1.2))

/-- The selection fold either keeps its current best (everything folded is
at most as long) or returns a folded transcript strictly longer than the
start and at least as long as everything folded. -/
theorem foldl_pickLonger_spec :
    ∀ (l : List Transcript) (c : Option Transcript),
      (bestOf l c = c ∧ ∀ t ∈ l, span t ≤ spanOpt c) ∨
      (∃ t ∈ l, bestOf l c = some t ∧ spanOpt c < span t ∧ ∀ u ∈ l, span u ≤ span t) := by
  intro l
  induction l with
  | nil => intro c; left; exact ⟨rfl, by simp⟩
  | cons x xs ih =>
    intro c
    have hcons : bestOf (x :: xs) c = bestOf xs (pickLonger x c) := rfl
    by_cases h : spanOpt c < span x
    · have hpick : pickLonger x c = some x := by simp [pickLonger, h]
      rcases ih (some x) with ⟨heq, hall⟩ | ⟨u, hu, heq, hlt, hall⟩
      · right
        refine ⟨x, List.mem_cons_self _ _, ?_, h, ?_⟩
        · rw [hcons, hpick]; exact heq
        · intro u hu
          rcases List.mem_cons.mp hu with rfl | hu2
          · exact le_refl _
          · simpa [spanOpt] using hall u hu2
      · right
        refine ⟨u, List.mem_cons_of_mem _ hu, ?_, ?_, ?_⟩
        · rw [hcons, hpick]; exact heq
        · exact lt_trans h (by simpa [spanOpt] using hlt)
        · intro v hv
          rcases List.mem_cons.mp hv with rfl | hv2
          · exact le_of_lt (by simpa [spanOpt] using hlt)
          · exact hall v hv2
    · have hpick : pickLonger x c = c := by simp [pickLonger, h]
      rcases ih c with ⟨heq, hall⟩ | ⟨u, hu, heq, hlt, hall⟩
      · left
        refine ⟨by rw [hcons, hpick]; exact heq, ?_⟩
        intro v hv
        rcases List.mem_cons.mp hv with rfl | hv2
        · exact not_lt.mp h
        · exact hall v hv2
      · right
        refine ⟨u, List.mem_cons_of_mem _ hu, by rw [hcons, hpick]; exact heq, hlt, ?_⟩
        intro v hv
        rcases List.mem_cons.mp hv with rfl | hv2
        · exact le_trans (not_lt.mp h) (le_of_lt hlt)
        · exact hall v hv2

/-- Once the some-wrapped selection fold is seeded, joining recovers the
plain selection fold. -/
theorem fold_pick_join (l : List (String × Transcript)) :
    ∀ (c : Option Transcript),
      l.foldl (fun acc p => some (pickLonger p.2 (Option.join acc))) (some c) =
        some (bestOf (l.map Prod.snd) c) := by
  induction l with
  | nil => intro c; rfl
  | cons p ps ih =>
    intro c
    have hjoin : Option.join (some c) = c := rfl
    rw [List.foldl_cons, hjoin, ih (pickLonger p.2 c)]
    congr 1

/-- Starting the some-wrapped selection fold from the defaultdict miss
also recovers the plain selection fold, on a non-empty group. -/
theorem fold_pick_join_none :
    ∀ (l : List (String × Transcript)), l ≠ [] →
      l.foldl (fun acc p => some (pickLonger p.2 (Option.join acc))) none =
        some (bestOf (l.map Prod.snd) none) := by
  intro l hne
  cases l with
  | nil => exact absurd rfl hne
  | cons p ps =>
    have hjoin : Option.join (none : Option (Option Transcript)) = none := rfl
    rw [List.foldl_cons, hjoin, fold_pick_join ps (pickLonger p.2 none)]
    congr 1

/-- The output loop formats every entry when all entries carry a selected
transcript whose gene identifier is the entry's key; the records appear in
entry order, one per entry, built field-by-field from the transcript. -/
theorem buildRecords_ok (pre : Bool) :
    ∀ (entries : List (String × Option Transcript)),
      (∀ p ∈ entries, ∃ t, p.2 = some t ∧ t.gene_id = p.1) →
      ∃ out, buildRecords pre entries = Except.ok out ∧
        out.map (fun r => r.gene_id) = entries.map Prod.fst ∧
        (∀ r ∈ out, ∃ g2 t, (g2, some t) ∈ entries ∧
          r = ⟨t.chrom, t.start, t.stop, t.strand, t.gene_id, t.transcript_id,
            if pre then t.stop - t.start else t.mRNA_length⟩) := by
  intro entries
  induction entries with
  | nil =>
    intro _
    exact ⟨[], rfl, rfl, by intro r hr; cases hr⟩
  | cons p rest ih =>
    intro hall
    obtain ⟨g0, o0⟩ := p
    obtain ⟨t0, ht0, hg0⟩ := hall (g0, o0) (List.mem_cons_self _ _)
    simp only at ht0 hg0
    subst ht0
    obtain ⟨out, hout, hmap, hmem⟩ := ih (fun q hq => hall q (List.mem_cons_of_mem _ hq))
    refine ⟨⟨t0.chrom, t0.start, t0.stop, t0.strand, t0.gene_id, t0.transcript_id,
      if pre then t0.stop - t0.start else t0.mRNA_length⟩ :: out, ?_, ?_, ?_⟩
    · simp [buildRecords, hout, Except.map]
    · simp [hmap, hg0]
    · intro r hr
      rcases List.mem_cons.mp hr with rfl | hr2
      · exact ⟨g0, t0, List.mem_cons_self _ _, rfl⟩
      · obtain ⟨g2, t, hmemq, hrq⟩ := hmem r hr2
        exact ⟨g2, t, List.mem_cons_of_mem _ hmemq, hrq⟩

/-- Counting records with a given gene identifier through the identifier
column. -/
theorem length_filter_gene (out : List GtfGeneRecord) (g : String) :
    (out.filter (fun r => r.gene_id = g)).length =
      ((out.map (fun r => r.gene_id)).filter (fun x => x = g)).length := by
  induction out with
  | nil => rfl
  | cons r rest ih =>
    by_cases h : r.gene_id = g <;> simp [List.filter_cons, h, ih]

/-- A key absent from a list contributes no filtered entries. -/
theorem filter_eq_nil_of_not_mem :
    ∀ (ks : List String) (g : String), g ∉ ks → ks.filter (fun x => x = g) = [] := by
  intro ks
  induction ks with
  | nil => intro g _; rfl
  | cons k ks2 ih =>
    intro g hg
    have hk : ¬ k = g := fun h => hg (by rw [← h]; exact List.mem_cons_self _ _)
    simp [List.filter_cons, hk, ih g (fun h2 => hg (List.mem_cons_of_mem _ h2))]

/-- In a duplicate-free key list, a present key is counted exactly once. -/
theorem nodup_filter_length_one :
    ∀ (ks : List String) (g : String), ks.Nodup → g ∈ ks →
      (ks.filter (fun x => x = g)).length = 1 := by
  intro ks
  induction ks with
  | nil => intro g _ h; cases h
  | cons k ks2 ih =>
    intro g hnd hg
    have hnd2 := List.nodup_cons.mp hnd
    by_cases h : k = g
    · subst h
      simp [List.filter_cons, filter_eq_nil_of_not_mem ks2 k hnd2.1]
    · have hg2 : g ∈ ks2 := by
        rcases List.mem_cons.mp hg with h2 | h2
        · exact absurd h2.symm h
        · exact h2
      simp [List.filter_cons, h, ih g hnd2.2 hg2]

/-- The grouping loop maps each transcript identifier to the aggregate of
exactly its exon lines. -/
theorem gather_lookup (lines : List GtfLine) (tid : String) :
    lookupA tid (gatherTranscripts lines) =
      aggExons ((exonsOf lines).filter (fun e => e.transcript_id = tid)) none := by
  show lookupA tid ((exonsOf lines).foldl
      (fun acc e => updAssoc e.transcript_id (updateTranscript e) acc) []) = _
  rw [foldl_updAssoc_lookupA (fun e => e.transcript_id) (fun e c => updateTranscript e c)]
  rfl

/-- The grouped transcripts have distinct identifiers. -/
theorem gather_keys_nodup (lines : List GtfLine) :
    ((gatherTranscripts lines).map Prod.fst).Nodup :=
  foldl_updAssoc_keys_nodup _ _ _ [] (by simp)

/-- The selection loop maps each gene to the selection fold over exactly
its transcripts. -/
theorem select_lookup (ts : List (String × Transcript)) (g2 : String) :
    lookupA g2 (selectLongest ts) =
      (ts.filter (fun p => p.2.gene_id = g2)).foldl
        (fun c p => some (pickLonger p.2 (Option.join c))) none := by
  show lookupA g2 (ts.foldl (fun acc p =>
      updAssoc p.2.gene_id (fun c => pickLonger p.2 (Option.join c)) acc) []) = _
  rw [foldl_updAssoc_lookupA (fun p : String × Transcript => p.2.gene_id)
    (fun (p : String × Transcript) (c : Option (Option Transcript)) =>
      pickLonger p.2 (Option.join c))]
  rfl

/-- The selected genes are distinct. -/
theorem select_keys_nodup (ts : List (String × Transcript)) :
    ((selectLongest ts).map Prod.fst).Nodup :=
  foldl_updAssoc_keys_nodup _ _ _ [] (by simp)

/-- Every grouped transcript has positive span when every exon line has
positive extent. -/
theorem gather_span_pos (lines : List GtfLine)
    (hpos : ∀ e ∈ exonsOf lines, e.start < e.stop) :
    ∀ p ∈ gatherTranscripts lines, 0 < span p.2 := by
  intro p hp
  obtain ⟨tid, t⟩ := p
  have hl : lookupA tid (gatherTranscripts lines) = some t :=
    mem_lookupA_of_nodup _ (gather_keys_nodup lines) tid t hp
  rw [gather_lookup] at hl
  have hne : (exonsOf lines).filter (fun e => e.transcript_id = tid) ≠ [] := by
    intro h0
    rw [h0] at hl
    simp [aggExons] at hl
  exact aggExons_span_pos _ hne (fun e he => hpos e (List.mem_of_mem_filter he)) t hl

/-- A grouped transcript's summed length is the total length of exactly
its exon lines. -/
theorem gather_mRNA (lines : List GtfLine) (tid : String) (t : Transcript)
    (h : (tid, t) ∈ gatherTranscripts lines) :
    t.mRNA_length = (((exonsOf lines).filter (fun e => e.transcript_id = tid)).map
      (fun e => e.stop - e.start)).sum := by
  have hl : lookupA tid (gatherTranscripts lines) = some t :=
    mem_lookupA_of_nodup _ (gather_keys_nodup lines) tid t h
  rw [gather_lookup] at hl
  have hne : (exonsOf lines).filter (fun e => e.transcript_id = tid) ≠ [] := by
    intro h0
    rw [h0] at hl
    simp [aggExons] at hl
  obtain ⟨t2, hagg, hm, _, _⟩ := aggExons_none_spec _ hne
  obtain rfl : t2 = t := Option.some.inj (hagg.symm.trans hl)
  exact hm

/-- Every selected entry holds a transcript of its own gene that is at
least as long as every grouped transcript of that gene. -/
theorem select_entry_spec (lines : List GtfLine)
    (hpos : ∀ e ∈ exonsOf lines, e.start < e.stop) :
    ∀ q ∈ selectLongest (gatherTranscripts lines), ∃ t, q.2 = some t ∧ t.gene_id = q.1 ∧
      t ∈ ((gatherTranscripts lines).filter (fun p => p.2.gene_id = q.1)).map Prod.snd ∧
      ∀ u ∈ ((gatherTranscripts lines).filter (fun p => p.2.gene_id = q.1)).map Prod.snd,
        span u ≤ span t := by
  intro q hq
  obtain ⟨g2, o⟩ := q
  have hl : lookupA g2 (selectLongest (gatherTranscripts lines)) = some o :=
    mem_lookupA_of_nodup _ (select_keys_nodup _) g2 o hq
  rw [select_lookup] at hl
  by_cases hlne : (gatherTranscripts lines).filter (fun p => p.2.gene_id = g2) = []
  · rw [hlne] at hl
    simp at hl
  · rw [fold_pick_join_none _ hlne] at hl
    obtain rfl : o = bestOf (((gatherTranscripts lines).filter
        (fun p => p.2.gene_id = g2)).map Prod.snd) none := (Option.some.inj hl).symm
    rcases foldl_pickLonger_spec (((gatherTranscripts lines).filter
        (fun p => p.2.gene_id = g2)).map Prod.snd) none with
      ⟨heq, hall⟩ | ⟨t, htl, heq, _, hall⟩
    · exfalso
      obtain ⟨p0, hp0⟩ := List.exists_mem_of_ne_nil _ hlne
      have h1 : span p0.2 ≤ spanOpt none := hall p0.2 (List.mem_map.mpr ⟨p0, hp0, rfl⟩)
      have h2 : 0 < span p0.2 := gather_span_pos lines hpos p0 (List.mem_of_mem_filter hp0)
      simp [spanOpt] at h1
      omega
    · obtain ⟨pt, hptf, hptt⟩ := List.mem_map.mp htl
      have hgid : t.gene_id = g2 := by
        have hfil := (List.mem_filter.mp hptf).2
        simp only [decide_eq_true_eq] at hfil
        rw [← hptt]
        exact hfil
      exact ⟨t, heq, hgid, htl, hall⟩

/-- When some exon line carries a gene, some grouped transcript carries
that gene (given per-transcript gene consistency). -/
theorem gather_gene_exists (lines : List GtfLine)
    (hgene : ∀ e1 ∈ exonsOf lines, ∀ e2 ∈ exonsOf lines,
      e1.transcript_id = e2.transcript_id → e1.gene_id = e2.gene_id)
    (g : String) (hg : ∃ e ∈ exonsOf lines, e.gene_id = g) :
    ∃ p ∈ gatherTranscripts lines, p.2.gene_id = g := by
  obtain ⟨e0, he0, hge0⟩ := hg
  have htid : e0.transcript_id ∈ (gatherTranscripts lines).map Prod.fst := by
    show e0.transcript_id ∈ ((exonsOf lines).foldl
      (fun acc e => updAssoc e.transcript_id (updateTranscript e) acc) []).map Prod.fst
    rw [foldl_updAssoc_mem_keys (fun e => e.transcript_id) (fun e c => updateTranscript e c)]
    exact Or.inr ⟨e0, he0, rfl⟩
  obtain ⟨t0, hl0⟩ := lookupA_isSome_of_mem_keys _ _ htid
  have hp0 : (e0.transcript_id, t0) ∈ gatherTranscripts lines := lookupA_mem _ _ t0 hl0
  have hl0b := hl0
  rw [gather_lookup] at hl0b
  have hne0 : (exonsOf lines).filter (fun e => e.transcript_id = e0.transcript_id) ≠ [] := by
    intro h0
    rw [h0] at hl0b
    simp [aggExons] at hl0b
  obtain ⟨t0b, hagg, _, _, hgene0⟩ := aggExons_none_spec _ hne0
  have heq3 : t0b = t0 := Option.some.inj (hagg.symm.trans hl0b)
  rw [heq3] at hgene0
  obtain ⟨e1, he1, hge1⟩ := List.mem_map.mp hgene0
  have he1f : e1 ∈ exonsOf lines := List.mem_of_mem_filter he1
  have he1t : e1.transcript_id = e0.transcript_id := by
    have hfil := (List.mem_filter.mp he1).2
    simpa using hfil
  have heq2 : e1.gene_id = e0.gene_id := hgene e1 he1f e0 he0 he1t
  exact ⟨(e0.transcript_id, t0), hp0, by rw [← hge1, heq2]; exact hge0⟩

/-- C7: in the generic transcript-interval mode, given positive-extent
exon lines, per-transcript gene consistency, and a gene that occurs, the
build succeeds and produces exactly one record for that gene; the record
comes from a grouped transcript of the gene whose span is maximal among
the gene's transcripts, its coordinates are that transcript's envelope,
its effective length is the (stop - start) span when the pre-mRNA flag is
set and the summed exon length otherwise, and the summed length is
exactly the total length of that transcript's exon lines. -/
theorem C7_longest_transcript_per_gene (lines : List GtfLine) (pre_mrna : Bool) (g : String)
    (hpos : ∀ e ∈ exonsOf lines, e.start < e.stop)
    (hgene : ∀ e1 ∈ exonsOf lines, ∀ e2 ∈ exonsOf lines,
      e1.transcript_id = e2.transcript_id → e1.gene_id = e2.gene_id)
    (hg : ∃ e ∈ exonsOf lines, e.gene_id = g) :
    ∃ out, build_transcript_data_gtf lines pre_mrna = Except.ok out ∧
      (out.filter (fun r => r.gene_id = g)).length = 1 ∧
      ∀ r ∈ out, r.gene_id = g →
        ∃ tid t, (tid, t) ∈ gatherTranscripts lines ∧ t.gene_id = g ∧
          (∀ tid2 t2, (tid2, t2) ∈ gatherTranscripts lines → t2.gene_id = g →
            span t2 ≤ span t) ∧
          r.start = t.start ∧ r.stop = t.stop ∧
          r.effective_length = (if pre_mrna then t.stop - t.start else t.mRNA_length) ∧
          t.mRNA_length = (((exonsOf lines).filter
            (fun e => e.transcript_id = tid)).map (fun e => e.stop - e.start)).sum := by
  have hallsome : ∀ q ∈ selectLongest (gatherTranscripts lines),
      ∃ t, q.2 = some t ∧ t.gene_id = q.1 := by
    intro q hq
    obtain ⟨t, h1, h2, _, _⟩ := select_entry_spec lines hpos q hq
    exact ⟨t, h1, h2⟩
  obtain ⟨out, hout, hmap, hmemout⟩ := buildRecords_ok pre_mrna _ hallsome
  refine ⟨out, hout, ?_, ?_⟩
  · have hkeys : g ∈ (selectLongest (gatherTranscripts lines)).map Prod.fst := by
      show g ∈ ((gatherTranscripts lines).foldl (fun acc p =>
        updAssoc p.2.gene_id (fun c => pickLonger p.2 (Option.join c)) acc) []).map Prod.fst
      rw [foldl_updAssoc_mem_keys (fun p : String × Transcript => p.2.gene_id)
        (fun (p : String × Transcript) (c : Option (Option Transcript)) =>
          pickLonger p.2 (Option.join c))]
      exact Or.inr (gather_gene_exists lines hgene g hg)
    rw [length_filter_gene, hmap]
    exact nodup_filter_length_one _ g (select_keys_nodup _) hkeys
  · intro r hr hrg
    obtain ⟨g2, t, hq, hreq⟩ := hmemout r hr
    obtain ⟨t2, ht2, hgid2, htin, hmax⟩ := select_entry_spec lines hpos (g2, some t) hq
    simp only at ht2 hgid2 htin hmax
    obtain rfl : t = t2 := Option.some.inj ht2
    have hrgid : r.gene_id = t.gene_id := by rw [hreq]
    have hg2 : g2 = g := by
      rw [← hgid2, ← hrgid]
      exact hrg
    rw [hg2] at hgid2 htin hmax
    obtain ⟨pt, hptf, hptt⟩ := List.mem_map.mp htin
    obtain ⟨tid, t3⟩ := pt
    simp only at hptt
    rw [hptt] at hptf
    have hpts : (tid, t) ∈ gatherTranscripts lines := List.mem_of_mem_filter hptf
    refine ⟨tid, t, hpts, hgid2, ?_, ?_, ?_, ?_, gather_mRNA lines tid t hpts⟩
    · intro tid2 t4 hmem2 hgene2
      apply hmax
      exact List.mem_map.mpr ⟨(tid2, t4), List.mem_filter.mpr ⟨hmem2, by simp [hgene2]⟩, rfl⟩
    · rw [hreq]
    · rw [hreq]
    · rw [hreq]

/-- C7 witness: the concrete two-transcript gene, with the pre-mRNA flag
off. -/
theorem C7_longest_transcript_per_gene_witness :
    ∃ out, build_transcript_data_gtf gtfLinesW false = Except.ok out ∧
      (out.filter (fun r => r.gene_id = ("G" : String))).length = 1 ∧
      ∀ r ∈ out, r.gene_id = ("G" : String) →
        ∃ tid t, (tid, t) ∈ gatherTranscripts gtfLinesW ∧ t.gene_id = ("G" : String) ∧
          (∀ tid2 t2, (tid2, t2) ∈ gatherTranscripts gtfLinesW → t2.gene_id = ("G" : String) →
            span t2 ≤ span t) ∧
          r.start = t.start ∧ r.stop = t.stop ∧
          r.effective_length = (if false then t.stop - t.start else t.mRNA_length) ∧
          t.mRNA_length = (((exonsOf gtfLinesW).filter
            (fun e => e.transcript_id = tid)).map (fun e => e.stop - e.start)).sum :=
  C7_longest_transcript_per_gene gtfLinesW false ("G") (by decide) (by decide) (by decide)
